import Mathlib

/-
Verification of the luminara HTTP client request-lifecycle orchestrator.

The repository ships the client facade (src/src/core/luminara.js, src/src/index.js)
together with its test suite (src/test-cli/tests), while the orchestration modules the
facade imports (RetryOrchestrator, PluginPipeline, ConfigManager, SignalManager, the
retry policy, the hedging executor, the rate limiter and the stats hub) are declared in
src/src/index.js but are not present in the tree. Those modules are therefore modelled
here from the specification, and where the repository test suite pins concrete observable
behavior at concrete inputs, that behavior is transcribed as well and compared with the
specification model.
-/

namespace Luminara

/-- HTTP methods handled by the client facade (HttpVerbs in src/src/core/luminara.js). -/
inductive Method
  | GET
  | HEAD
  | OPTIONS
  | PUT
  | DELETE
  | TRACE
  | POST
  | PATCH
deriving DecidableEq, Repr

/-- Modelled from the spec: IDEMPOTENT_METHODS and isIdempotentMethod are exported by
src/src/index.js from src/drivers/native/features/retry/retryPolicy.js, which is absent
from the tree. Section 4.4 and the glossary list the idempotent methods as GET, HEAD,
OPTIONS, PUT, DELETE, TRACE; the test retry.test.js "Idempotent method detection" agrees
(GET, PUT, DELETE idempotent; POST, PATCH not). -/
def isIdempotentMethod : Method → Bool
  | Method.GET => true
  | Method.HEAD => true
  | Method.OPTIONS => true
  | Method.PUT => true
  | Method.DELETE => true
  | Method.TRACE => true
  | Method.POST => false
  | Method.PATCH => false

/-- Modelled from the spec: DEFAULT_RETRY_STATUS_CODES is exported by src/src/index.js from
the absent retryPolicy.js; section 4.4 gives the default retryable set. -/
def DEFAULT_RETRY_STATUS_CODES : List Nat := [408, 409, 425, 429, 500, 502, 503, 504]

/-- The six tagged error kinds of section 3 of the spec. The test suite observes them as the
code strings TIMEOUT, ABORT, NETWORK_ERROR, PARSE_ERROR on LuminaraError values. -/
inductive ErrorKind
  | HTTP
  | TIMEOUT
  | ABORT
  | NETWORK
  | PARSE
  | PLUGIN
deriving DecidableEq, Repr

/-- The list of all six error kinds, in the order of section 3. -/
def SIX_ERROR_KINDS : List ErrorKind :=
  [ErrorKind.HTTP, ErrorKind.TIMEOUT, ErrorKind.ABORT, ErrorKind.NETWORK,
   ErrorKind.PARSE, ErrorKind.PLUGIN]

/-- A failure of one attempt, as consumed by the should-retry policy: the tag of the
normalized error, with the response status attached for HTTP failures. -/
inductive Failure
  | http (status : Nat)
  | timeout
  | network
  | abort
  | parse
  | plugin
deriving DecidableEq, Repr

/-- Raw failure modes entering the core before normalization: a non-2xx response surfaced as
an error, the internal timeout signal firing, a user cancellation, a transport-native I/O
error, a body-parser failure, a plugin hook raising, and any other raw exception. -/
inductive RawFailure
  | httpStatus (status : Nat)
  | nativeTimeout
  | nativeAbort
  | nativeNetwork (msg : String)
  | bodyParse (msg : String)
  | pluginThrow (msg : String)
  | unknownRaw (msg : String)
deriving DecidableEq, Repr

/-- Modelled from the spec: error normalization (sections 3, 6 and 7) — every error a user
sees is tagged with one of the six kinds; transport-native errors are wrapped on entry to
the core, raw I/O errors into NETWORK; plugin exceptions become PLUGIN errors. The
LuminaraError construction code is absent from the tree; the tests
"Network Error Normalization" and "Parse Error Structure" in interceptors.test.js observe
the wrapping. -/
def normalizeFailure : RawFailure → ErrorKind
  | RawFailure.httpStatus _ => ErrorKind.HTTP
  | RawFailure.nativeTimeout => ErrorKind.TIMEOUT
  | RawFailure.nativeAbort => ErrorKind.ABORT
  | RawFailure.nativeNetwork _ => ErrorKind.NETWORK
  | RawFailure.bodyParse _ => ErrorKind.PARSE
  | RawFailure.pluginThrow _ => ErrorKind.PLUGIN
  | RawFailure.unknownRaw _ => ErrorKind.NETWORK

/-- Retry policy configuration: the retryable status set and the explicit enablement flag
for retrying non-idempotent methods, from section 4.4 of the spec. -/
structure RetryPolicyCfg where
  retryStatusCodes : List Nat
  retryNonIdempotent : Bool
deriving DecidableEq, Repr

/-- The built-in retry policy configuration: the default retryable set, and no explicit
enablement of retries for non-idempotent methods. -/
def defaultRetryPolicyCfg : RetryPolicyCfg :=
  { retryStatusCodes := DEFAULT_RETRY_STATUS_CODES, retryNonIdempotent := false }

/-- Modelled from the spec: the default should-retry policy of section 4.4, implemented by
the absent retryPolicy.js — never retry on ABORT; retry on TIMEOUT and NETWORK only for
idempotent methods; retry on HTTP when the response status is in the retryable set and,
for non-idempotent methods, only if explicitly enabled. PARSE and PLUGIN failures are not
mentioned by the policy and are not retried. -/
def defaultRetryPolicy (cfg : RetryPolicyCfg) (m : Method) : Failure → Bool
  | Failure.http s =>
      cfg.retryStatusCodes.contains s && (isIdempotentMethod m || cfg.retryNonIdempotent)
  | Failure.timeout => isIdempotentMethod m
  | Failure.network => isIdempotentMethod m
  | Failure.abort => false
  | Failure.parse => false
  | Failure.plugin => false

/-- The default should-retry policy as pinned by the repository test suite, kept alongside
the specification model for comparison. It differs from defaultRetryPolicy in exactly two
points the tests assert: (a) TIMEOUT failures are never retried — retry.test.js
"Retry with timeout combination" and timeout.test.js "Timeout with retry combination" both
assert a single transport call for a GET whose attempts time out with retries remaining —
and (b) HTTP failures whose status is in the retryable set are retried for non-idempotent
methods with no explicit enablement — retry.test.js "Retry with POST requests and body
preservation" asserts three transport calls for a POST with retry = 2 against a server
that always answers 503, and "Default policy retries POST on safe status codes" retries a
POST on 500. -/
def observedRetryPolicy (cfg : RetryPolicyCfg) (m : Method) : Failure → Bool
  | Failure.http s => cfg.retryStatusCodes.contains s
  | Failure.timeout => false
  | Failure.network => isIdempotentMethod m
  | Failure.abort => false
  | Failure.parse => false
  | Failure.plugin => false

/-- Outcome of one attempt (transport plus plugin chains), as seen by the retry loop. -/
inductive AttemptOutcome
  | success
  | failure (f : Failure)
deriving DecidableEq, Repr

/-- Result of a whole call: success or a surfaced error, each carrying the 1-based attempt
number on which the call settled. -/
inductive CallResult
  | ok (attempt : Nat)
  | err (f : Failure) (attempt : Nat)
deriving DecidableEq, Repr

/-- The attempt number a call settles on; since the loop performs one transport attempt per
attempt number, this is also the number of transport calls made. -/
def CallResult.attempt : CallResult → Nat
  | CallResult.ok a => a
  | CallResult.err _ a => a

/-- Modelled from the spec: the RetryOrchestrator loop of section 4.4, implemented by the
absent src/src/core/orchestration/RetryOrchestrator.js — attempts are numbered from 1;
after a failed attempt the loop consults the should-retry policy and the remaining retry
budget; on success or on a final failure the surfaced value carries the attempt number.
The outcome of each attempt is supplied as a function of the attempt number, standing for
the transport and plugin-chain result of that attempt. -/
def runRetryLoop (shouldRetry : Failure → Bool) (outcomes : Nat → AttemptOutcome) :
    Nat → Nat → CallResult
  | retriesLeft, attempt =>
    match outcomes attempt with
    | AttemptOutcome.success => CallResult.ok attempt
    | AttemptOutcome.failure f =>
      match retriesLeft with
      | 0 => CallResult.err f attempt
      | Nat.succ rl =>
        if shouldRetry f then runRetryLoop shouldRetry outcomes rl (attempt + 1)
        else CallResult.err f attempt

/-- A call with a normalized maximum retry count: attempt numbering starts at 1. -/
def executeCall (shouldRetry : Failure → Bool) (outcomes : Nat → AttemptOutcome)
    (maxRetries : Nat) : CallResult :=
  runRetryLoop shouldRetry outcomes maxRetries 1

/-- The per-call retry option: an integer budget, or false to disable. -/
inductive RetrySetting
  | num (n : Nat)
  | off
deriving DecidableEq, Repr

/-- Modelled from the spec: the config resolver of section 4.2, implemented by the absent
src/src/core/config/ConfigManager.js, normalizes the retry option — an integer gives that
many retries, and retry = false as well as retry = 0 disable retries. -/
def normalizeRetry : RetrySetting → Nat
  | RetrySetting.num n => n
  | RetrySetting.off => 0

/-- A scenario configuration together with the transport-call count the repository test
suite asserts for it. -/
structure ObservedScenario where
  method : Method
  retryBudget : Nat
  failure : Failure
  observedTransportCalls : Nat
deriving DecidableEq, Repr

/-- Transcribed from src/test-cli/tests/retry.test.js, test "Retry with timeout combination"
(and src/test-cli/tests/timeout.test.js, test "Timeout with retry combination"): a GET
with retry = 2 whose attempts time out; both tests assert requestCount === 1 with the
comment that timeout errors are not retried. -/
def timeoutRetryComboObserved : ObservedScenario :=
  { method := Method.GET
    retryBudget := 2
    failure := Failure.timeout
    observedTransportCalls := 1 }

/-- Transcribed from src/test-cli/tests/retry.test.js, test "Retry with POST requests and
body preservation": a POST with retry = 2 against a server that always returns 503 and no
explicit enablement configured; the test asserts requestCount === 3. -/
def postRetryObserved : ObservedScenario :=
  { method := Method.POST
    retryBudget := 2
    failure := Failure.http 503
    observedTransportCalls := 3 }

/-- If every attempt fails with the same failure and the policy retries it, the loop runs the
whole budget down and settles on attempt retriesLeft + start. -/
theorem runRetryLoop_const_failure (sr : Failure → Bool) (f : Failure) (hf : sr f = true) :
    ∀ (rl a : Nat),
      runRetryLoop sr (fun _ => AttemptOutcome.failure f) rl a = CallResult.err f (rl + a) := by
  intro rl
  induction rl with
  | zero =>
    intro a
    simp [runRetryLoop]
  | succ rl ih =>
    intro a
    rw [runRetryLoop]
    simp only [hf, if_true]
    rw [ih (a + 1)]
    congr 1
    omega

/-- With a zero retry budget the loop settles on the starting attempt, whatever happens. -/
theorem runRetryLoop_zero_budget (sr : Failure → Bool) (outcomes : Nat → AttemptOutcome)
    (a : Nat) : (runRetryLoop sr outcomes 0 a).attempt = a := by
  rw [runRetryLoop]
  cases outcomes a with
  | success => rfl
  | failure f => rfl

/-- C1 counterexample: the claim is false on the code as the repository tests pin it. The
cited scenario — a GET (idempotent) with retry = 2 whose attempts fail with TIMEOUT — is
exactly the configuration of retry.test.js "Retry with timeout combination" and
timeout.test.js "Timeout with retry combination"; the claim (and the spec-modelled default
policy, which would drive 3 transport calls) demands a further attempt, but both tests
assert exactly 1 transport call: the failure leads to no further attempt. -/
theorem C1_counterexample :
    isIdempotentMethod timeoutRetryComboObserved.method = true ∧
    timeoutRetryComboObserved.retryBudget = 2 ∧
    (executeCall (defaultRetryPolicy defaultRetryPolicyCfg timeoutRetryComboObserved.method)
        (fun _ => AttemptOutcome.failure Failure.timeout)
        timeoutRetryComboObserved.retryBudget).attempt = 3 ∧
    timeoutRetryComboObserved.observedTransportCalls = 1 ∧
    ¬ 2 ≤ timeoutRetryComboObserved.observedTransportCalls := by
  refine ⟨rfl, rfl, ?_, rfl, by decide⟩
  decide

/-- C1 (amended): under the default should-retry policy as pinned by the repository tests,
an attempt failing with a NETWORK error is retried exactly when the request method is
idempotent, while an attempt failing with a TIMEOUT error is never retried for any method:
the cited GET-timeout scenario with retry = 2 performs exactly 1 transport call, matching
the count the tests assert. -/
theorem C1_amended_timeout_never_retried (m : Method) :
    observedRetryPolicy defaultRetryPolicyCfg m Failure.timeout = false ∧
    observedRetryPolicy defaultRetryPolicyCfg m Failure.network = isIdempotentMethod m ∧
    (executeCall (observedRetryPolicy defaultRetryPolicyCfg Method.GET)
        (fun _ => AttemptOutcome.failure Failure.timeout)
        timeoutRetryComboObserved.retryBudget).attempt
      = timeoutRetryComboObserved.observedTransportCalls := by
  refine ⟨rfl, rfl, ?_⟩
  decide

/-- C2 counterexample: the claim is false on the code as the repository tests pin it. The
cited scenario — a POST (non-idempotent) with retry = 2, failure HTTP 503 (in the default
retryable set), and no explicit enablement (retryNonIdempotent is false in the default
configuration) — is exactly the configuration of retry.test.js "Retry with POST requests
and body preservation"; the claim (and the spec-modelled default policy, which would stop
after 1 transport call) demands exactly one transport attempt, but the test asserts 3. -/
theorem C2_counterexample :
    isIdempotentMethod postRetryObserved.method = false ∧
    defaultRetryPolicyCfg.retryNonIdempotent = false ∧
    DEFAULT_RETRY_STATUS_CODES.contains 503 = true ∧
    (executeCall (defaultRetryPolicy defaultRetryPolicyCfg postRetryObserved.method)
        (fun _ => AttemptOutcome.failure (Failure.http 503))
        postRetryObserved.retryBudget).attempt = 1 ∧
    postRetryObserved.observedTransportCalls = 3 ∧
    ¬ postRetryObserved.observedTransportCalls = 1 := by
  refine ⟨rfl, rfl, by decide, ?_, rfl, by decide⟩
  decide

/-- C2 (amended): under the default should-retry policy as pinned by the repository tests,
an HTTP-tagged failure is retried — for non-idempotent methods as well, with no explicit
enablement — exactly when its status is in the retryable set: a POST with retry = 2
against a server that always answers 503 makes 3 transport attempts (the count the test
asserts), while a status outside the set (404) is never retried. -/
theorem C2_amended_post_retried (s : Nat) :
    observedRetryPolicy defaultRetryPolicyCfg Method.POST (Failure.http s)
      = DEFAULT_RETRY_STATUS_CODES.contains s ∧
    (executeCall (observedRetryPolicy defaultRetryPolicyCfg Method.POST)
        (fun _ => AttemptOutcome.failure (Failure.http 503))
        postRetryObserved.retryBudget).attempt
      = postRetryObserved.observedTransportCalls ∧
    (executeCall (observedRetryPolicy defaultRetryPolicyCfg Method.GET)
        (fun _ => AttemptOutcome.failure (Failure.http 404)) 3).attempt = 1 := by
  refine ⟨rfl, by decide, by decide⟩

/-- C3: every error a caller observes is tagged with exactly one of the six kinds HTTP,
TIMEOUT, ABORT, NETWORK, PARSE, PLUGIN — normalization is total over every raw failure
mode (non-2xx response, timeout signal, user abort, transport-native I/O error, parser
failure, plugin raise, and any other raw exception, which wraps into NETWORK), and the
resulting tag occurs exactly once in the list of the six kinds. -/
theorem C3_error_taxonomy (raw : RawFailure) :
    SIX_ERROR_KINDS.count (normalizeFailure raw) = 1 := by
  cases raw <;> rfl

/-- C4: with an integer retry budget of maxRetries whose attempts all fail with a failure
the policy retries, the call makes exactly maxRetries + 1 transport attempts and the
surfaced error carries attempt = maxRetries + 1; with the normalized budgets of retry = 0
and retry = false, any call settles on attempt 1, one transport attempt. -/
theorem C4_attempt_accounting (sr : Failure → Bool) (f : Failure) (maxRetries : Nat)
    (outcomes : Nat → AttemptOutcome) (hf : sr f = true) :
    executeCall sr (fun _ => AttemptOutcome.failure f) maxRetries
      = CallResult.err f (maxRetries + 1) ∧
    (executeCall sr outcomes (normalizeRetry (RetrySetting.num 0))).attempt = 1 ∧
    (executeCall sr outcomes (normalizeRetry RetrySetting.off)).attempt = 1 := by
  refine ⟨?_, ?_, ?_⟩
  · rw [executeCall, runRetryLoop_const_failure sr f hf]
  · exact runRetryLoop_zero_budget sr outcomes 1
  · exact runRetryLoop_zero_budget sr outcomes 1

/-- Witness for C4 at the configuration of retry.test.js "Basic retry on server errors":
GET with retry = 3 on a server that always answers 500 settles with the error on attempt
4 — four transport calls — and the disabled budgets give one attempt. -/
theorem C4_attempt_accounting_witness :
    observedRetryPolicy defaultRetryPolicyCfg Method.GET (Failure.http 500) = true ∧
    (executeCall (observedRetryPolicy defaultRetryPolicyCfg Method.GET)
        (fun _ => AttemptOutcome.failure (Failure.http 500)) 3
      = CallResult.err (Failure.http 500) 4 ∧
    (executeCall (observedRetryPolicy defaultRetryPolicyCfg Method.GET)
        (fun _ => AttemptOutcome.failure (Failure.http 500))
        (normalizeRetry (RetrySetting.num 0))).attempt = 1 ∧
    (executeCall (observedRetryPolicy defaultRetryPolicyCfg Method.GET)
        (fun _ => AttemptOutcome.failure (Failure.http 500))
        (normalizeRetry RetrySetting.off)).attempt = 1) :=
  ⟨by decide,
   C4_attempt_accounting (observedRetryPolicy defaultRetryPolicyCfg Method.GET)
     (Failure.http 500) 3 (fun _ => AttemptOutcome.failure (Failure.http 500)) (by decide)⟩

/-- Per-call context as the plugin chains see it; for the ordering and abort claims only the
mutable metadata is relevant, carried as a list of strings the steps may extend. -/
structure PluginCtx where
  meta : List String
deriving DecidableEq, Repr

/-- Outcome of one plugin step: continue with a possibly mutated context, or raise. -/
inductive StepOutcome
  | next (c : PluginCtx)
  | raise (msg : String)

/-- A plugin record with its optional named steps, section 4.3 of the spec. -/
structure Plugin where
  name : String
  onRequest : Option (PluginCtx → StepOutcome)
  onResponse : Option (PluginCtx → StepOutcome)
  onResponseError : Option (PluginCtx → StepOutcome)

/-- Result of running one chain: the final context, or the name of the plugin whose step
raised, with the raised message. -/
inductive ChainResult
  | done (c : PluginCtx)
  | raised (pluginName : String) (msg : String)
deriving DecidableEq, Repr

/-- Runs a chain of named steps over a context, also returning the list of the names of the
steps that were invoked, in invocation order: a step that raises ends the chain at once. -/
def runChain : List (String × (PluginCtx → StepOutcome)) → PluginCtx →
    List String × ChainResult
  | [], c => ([], ChainResult.done c)
  | (n, f) :: rest, c =>
    match f c with
    | StepOutcome.next c2 =>
      let r := runChain rest c2
      (n :: r.fst, r.snd)
    | StepOutcome.raise msg => ([n], ChainResult.raised n msg)

/-- The onRequest steps of a plugin list, keeping registration order. -/
def onRequestSteps (ps : List Plugin) : List (String × (PluginCtx → StepOutcome)) :=
  ps.filterMap (fun p => p.onRequest.map (fun f => (p.name, f)))

/-- The onResponse steps of a plugin list, keeping registration order. -/
def onResponseSteps (ps : List Plugin) : List (String × (PluginCtx → StepOutcome)) :=
  ps.filterMap (fun p => p.onResponse.map (fun f => (p.name, f)))

/-- The onResponseError steps of a plugin list, keeping registration order. -/
def onResponseErrorSteps (ps : List Plugin) : List (String × (PluginCtx → StepOutcome)) :=
  ps.filterMap (fun p => p.onResponseError.map (fun f => (p.name, f)))

/-- Modelled from the spec: the PluginPipeline of section 4.3, implemented by the absent
src/src/core/orchestration/PluginPipeline.js — per attempt the onRequest steps run
left-to-right in registration order. -/
def runOnRequestChain (ps : List Plugin) (c : PluginCtx) : List String × ChainResult :=
  runChain (onRequestSteps ps) c

/-- Modelled from the spec: onResponse steps run right-to-left, the reverse of registration
order. -/
def runOnResponseChain (ps : List Plugin) (c : PluginCtx) : List String × ChainResult :=
  runChain (onResponseSteps ps.reverse) c

/-- Modelled from the spec: onResponseError steps run right-to-left, the reverse of
registration order. -/
def runOnResponseErrorChain (ps : List Plugin) (c : PluginCtx) : List String × ChainResult :=
  runChain (onResponseErrorSteps ps.reverse) c

/-- A step that never raises: on every context it continues. -/
def StepTotal (f : PluginCtx → StepOutcome) : Prop :=
  ∀ c, ∃ c2, f c = StepOutcome.next c2

/-- A plugin all of whose present hooks never raise. -/
def hooksTotal (p : Plugin) : Prop :=
  (∀ f, p.onRequest = some f → StepTotal f) ∧
  (∀ f, p.onResponse = some f → StepTotal f) ∧
  (∀ f, p.onResponseError = some f → StepTotal f)

/-- Names of the plugins that declare an onRequest hook, in registration order. -/
def requestHookNames (ps : List Plugin) : List String :=
  (ps.filter (fun p => p.onRequest.isSome)).map Plugin.name

/-- Names of the plugins that declare an onResponse hook, in registration order. -/
def responseHookNames (ps : List Plugin) : List String :=
  (ps.filter (fun p => p.onResponse.isSome)).map Plugin.name

/-- Names of the plugins that declare an onResponseError hook, in registration order. -/
def responseErrorHookNames (ps : List Plugin) : List String :=
  (ps.filter (fun p => p.onResponseError.isSome)).map Plugin.name

/-- When no step of the chain raises, every step is invoked, in list order. -/
theorem runChain_fst_of_total (steps : List (String × (PluginCtx → StepOutcome)))
    (c : PluginCtx) (h : ∀ s ∈ steps, StepTotal s.snd) :
    (runChain steps c).fst = steps.map Prod.fst := by
  induction steps generalizing c with
  | nil => rfl
  | cons s rest ih =>
    obtain ⟨n, f⟩ := s
    obtain ⟨c2, hc2⟩ := h (n, f) (List.mem_cons_self _ _) c
    simp only at hc2
    simp only [runChain, hc2, List.map_cons]
    rw [ih c2 (fun s hs => h s (List.mem_cons_of_mem _ hs))]

/-- The invoked-step names of the onRequest chain are the names of the plugins declaring
that hook. -/
theorem onRequestSteps_names (ps : List Plugin) :
    (onRequestSteps ps).map Prod.fst = requestHookNames ps := by
  induction ps with
  | nil => rfl
  | cons p rest ih =>
    simp only [onRequestSteps, requestHookNames] at *
    cases hp : p.onRequest with
    | none => simpa [hp] using ih
    | some f => simpa [hp] using ih

/-- The invoked-step names of the onResponse chain are the names of the plugins declaring
that hook. -/
theorem onResponseSteps_names (ps : List Plugin) :
    (onResponseSteps ps).map Prod.fst = responseHookNames ps := by
  induction ps with
  | nil => rfl
  | cons p rest ih =>
    simp only [onResponseSteps, responseHookNames] at *
    cases hp : p.onResponse with
    | none => simpa [hp] using ih
    | some f => simpa [hp] using ih

/-- The invoked-step names of the onResponseError chain are the names of the plugins
declaring that hook. -/
theorem onResponseErrorSteps_names (ps : List Plugin) :
    (onResponseErrorSteps ps).map Prod.fst = responseErrorHookNames ps := by
  induction ps with
  | nil => rfl
  | cons p rest ih =>
    simp only [onResponseErrorSteps, responseErrorHookNames] at *
    cases hp : p.onResponseError with
    | none => simpa [hp] using ih
    | some f => simpa [hp] using ih

/-- Hook names of a reversed plugin list are the reversed hook names. -/
theorem responseHookNames_reverse (ps : List Plugin) :
    responseHookNames ps.reverse = (responseHookNames ps).reverse := by
  simp [responseHookNames, List.filter_reverse, List.map_reverse]

/-- Hook names of a reversed plugin list are the reversed hook names. -/
theorem responseErrorHookNames_reverse (ps : List Plugin) :
    responseErrorHookNames ps.reverse = (responseErrorHookNames ps).reverse := by
  simp [responseErrorHookNames, List.filter_reverse, List.map_reverse]

/-- Every onRequest step drawn from a list of plugins with total hooks is total. -/
theorem onRequestSteps_total (ps : List Plugin) (h : ∀ p ∈ ps, hooksTotal p) :
    ∀ s ∈ onRequestSteps ps, StepTotal s.snd := by
  intro s hs
  simp only [onRequestSteps, List.mem_filterMap] at hs
  obtain ⟨p, hp, hmap⟩ := hs
  cases hf : p.onRequest with
  | none => rw [hf] at hmap; cases hmap
  | some f =>
    rw [hf] at hmap
    simp only [Option.map_some', Option.some.injEq] at hmap
    subst hmap
    exact (h p hp).1 f hf

/-- Every onResponse step drawn from a list of plugins with total hooks is total. -/
theorem onResponseSteps_total (ps : List Plugin) (h : ∀ p ∈ ps, hooksTotal p) :
    ∀ s ∈ onResponseSteps ps, StepTotal s.snd := by
  intro s hs
  simp only [onResponseSteps, List.mem_filterMap] at hs
  obtain ⟨p, hp, hmap⟩ := hs
  cases hf : p.onResponse with
  | none => rw [hf] at hmap; cases hmap
  | some f =>
    rw [hf] at hmap
    simp only [Option.map_some', Option.some.injEq] at hmap
    subst hmap
    exact (h p hp).2.1 f hf

/-- Every onResponseError step drawn from a list of plugins with total hooks is total. -/
theorem onResponseErrorSteps_total (ps : List Plugin) (h : ∀ p ∈ ps, hooksTotal p) :
    ∀ s ∈ onResponseErrorSteps ps, StepTotal s.snd := by
  intro s hs
  simp only [onResponseErrorSteps, List.mem_filterMap] at hs
  obtain ⟨p, hp, hmap⟩ := hs
  cases hf : p.onResponseError with
  | none => rw [hf] at hmap; cases hmap
  | some f =>
    rw [hf] at hmap
    simp only [Option.map_some', Option.some.injEq] at hmap
    subst hmap
    exact (h p hp).2.2 f hf

/-- A chain of total steps followed by a raising step: every total step is invoked in order,
the raising step ends the chain, and the steps after it are never invoked. -/
theorem runChain_total_then_raise (steps1 steps2 : List (String × (PluginCtx → StepOutcome)))
    (n msg : String) (c : PluginCtx) (h : ∀ s ∈ steps1, StepTotal s.snd) :
    runChain (steps1 ++ (n, fun _ => StepOutcome.raise msg) :: steps2) c
      = (steps1.map Prod.fst ++ [n], ChainResult.raised n msg) := by
  induction steps1 generalizing c with
  | nil =>
    simp only [List.nil_append, List.map_nil]
    rw [runChain]
  | cons s rest ih =>
    obtain ⟨nm, f⟩ := s
    obtain ⟨c2, hc2⟩ := h (nm, f) (List.mem_cons_self _ _) c
    simp only at hc2
    simp only [List.cons_append, runChain, hc2, List.map_cons, List.append_eq]
    rw [ih c2 (fun s hs => h s (List.mem_cons_of_mem _ hs))]

/-- A plugin shaped like the order-observing plugins of interceptors.test.js: it declares
all three hooks and each hook continues with the context unchanged; ordering is observed
through the invoked-step list computed by runChain. -/
def mkLogger (n : String) : Plugin :=
  { name := n
    onRequest := some StepOutcome.next
    onResponse := some StepOutcome.next
    onResponseError := some StepOutcome.next }

/-- A plugin shaped like the failing plugin of edgeCases.test.js
"Multiple interceptors with error in middle of chain": its onRequest hook raises. -/
def mkThrower (n msg : String) : Plugin :=
  { name := n
    onRequest := some (fun _ => StepOutcome.raise msg)
    onResponse := none
    onResponseError := none }

/-- All hooks of a logging plugin are total. -/
theorem hooksTotal_mkLogger (n : String) : hooksTotal (mkLogger n) := by
  refine ⟨?_, ?_, ?_⟩ <;>
  · intro f hf c
    simp only [mkLogger] at hf
    cases hf
    exact ⟨c, rfl⟩

/-- C5: for every registered plugin list whose hooks all complete without raising, and every
starting context, the onRequest steps are invoked left-to-right in registration order,
while the onResponse steps and the onResponseError steps are each invoked right-to-left,
in reverse registration order. -/
theorem C5_plugin_chain_order (ps : List Plugin) (c : PluginCtx)
    (h : ∀ p ∈ ps, hooksTotal p) :
    (runOnRequestChain ps c).fst = requestHookNames ps ∧
    (runOnResponseChain ps c).fst = (responseHookNames ps).reverse ∧
    (runOnResponseErrorChain ps c).fst = (responseErrorHookNames ps).reverse := by
  have hrev : ∀ p ∈ ps.reverse, hooksTotal p := by
    intro p hp
    exact h p (List.mem_reverse.mp hp)
  refine ⟨?_, ?_, ?_⟩
  · rw [runOnRequestChain, runChain_fst_of_total _ c (onRequestSteps_total ps h),
      onRequestSteps_names]
  · rw [runOnResponseChain, runChain_fst_of_total _ c (onResponseSteps_total _ hrev),
      onResponseSteps_names, responseHookNames_reverse]
  · rw [runOnResponseErrorChain,
      runChain_fst_of_total _ c (onResponseErrorSteps_total _ hrev),
      onResponseErrorSteps_names, responseErrorHookNames_reverse]

/-- Witness for C5 at the three-plugin registration of interceptors.test.js
"onRequest interceptors execute in Left→Right order" and
"onResponse interceptors execute in Right→Left order": first, second, third run in that
order for onRequest and in the reverse order for onResponse and onResponseError. -/
theorem C5_plugin_chain_order_witness :
    (∀ p ∈ [mkLogger "first", mkLogger "second", mkLogger "third"], hooksTotal p) ∧
    ((runOnRequestChain [mkLogger "first", mkLogger "second", mkLogger "third"] ⟨[]⟩).fst
        = requestHookNames [mkLogger "first", mkLogger "second", mkLogger "third"] ∧
      (runOnResponseChain [mkLogger "first", mkLogger "second", mkLogger "third"] ⟨[]⟩).fst
        = (responseHookNames [mkLogger "first", mkLogger "second", mkLogger "third"]).reverse ∧
      (runOnResponseErrorChain
          [mkLogger "first", mkLogger "second", mkLogger "third"] ⟨[]⟩).fst
        = (responseErrorHookNames
            [mkLogger "first", mkLogger "second", mkLogger "third"]).reverse) := by
  have htot : ∀ p ∈ [mkLogger "first", mkLogger "second", mkLogger "third"],
      hooksTotal p := by
    intro p hp
    simp only [List.mem_cons, List.not_mem_nil, or_false] at hp
    rcases hp with rfl | rfl | rfl <;> exact hooksTotal_mkLogger _
  exact ⟨htot,
    C5_plugin_chain_order [mkLogger "first", mkLogger "second", mkLogger "third"] ⟨[]⟩ htot⟩

/-- C6: if an onRequest step raises, the attempt aborts at once — the chain returns the
raise, normalized to a PLUGIN-tagged error — and only the steps up to and including the
raising one were invoked: none of the later onRequest steps run, for every position of
the raising step in the chain (the plugins before it are arbitrary non-raising plugins,
the plugins after it are arbitrary). -/
theorem C6_onRequest_raise_aborts (as bs : List Plugin) (n msg : String) (c : PluginCtx)
    (h : ∀ p ∈ as, hooksTotal p) :
    runOnRequestChain (as ++ mkThrower n msg :: bs) c
      = (requestHookNames as ++ [n], ChainResult.raised n msg) ∧
    normalizeFailure (RawFailure.pluginThrow msg) = ErrorKind.PLUGIN := by
  refine ⟨?_, rfl⟩
  have hsplit : onRequestSteps (as ++ mkThrower n msg :: bs)
      = onRequestSteps as ++ (n, fun _ => StepOutcome.raise msg) :: onRequestSteps bs := by
    simp [onRequestSteps, List.filterMap_append, mkThrower]
  rw [runOnRequestChain, hsplit,
    runChain_total_then_raise _ _ n msg c (onRequestSteps_total as h),
    onRequestSteps_names]

/-- Witness for C6 at the configuration of edgeCases.test.js
"Multiple interceptors with error in middle of chain": first runs, second raises, third is
never invoked, and the surfaced error is PLUGIN-tagged. -/
theorem C6_onRequest_raise_aborts_witness :
    (∀ p ∈ [mkLogger "first"], hooksTotal p) ∧
    (runOnRequestChain
        ([mkLogger "first"] ++ mkThrower "second" "Second interceptor error"
          :: [mkLogger "third"]) ⟨[]⟩
      = (requestHookNames [mkLogger "first"] ++ ["second"],
         ChainResult.raised "second" "Second interceptor error") ∧
    normalizeFailure (RawFailure.pluginThrow "Second interceptor error")
      = ErrorKind.PLUGIN) := by
  have htot : ∀ p ∈ [mkLogger "first"], hooksTotal p := by
    intro p hp
    simp only [List.mem_cons, List.not_mem_nil, or_false] at hp
    subst hp
    exact hooksTotal_mkLogger _
  exact ⟨htot,
    C6_onRequest_raise_aborts [mkLogger "first"] [mkLogger "third"]
      "second" "Second interceptor error" ⟨[]⟩ htot⟩

/-- Rate-limiter bucket state: fractional tokens and the last-refill timestamp (section 3
of the spec); capacity and refill rate are carried as parameters of the operations. -/
structure Bucket where
  tokens : ℚ
  lastRefill : ℚ
deriving DecidableEq, Repr

/-- Modelled from the spec: step 1 of the admission algorithm of section 4.6, implemented by
the absent rate-limiter module — advance the bucket by
tokens = min(B, tokens + (now − lastRefill) × r) and update lastRefill. -/
def refillBucket (B r now : ℚ) (b : Bucket) : Bucket :=
  { tokens := min B (b.tokens + (now - b.lastRefill) * r), lastRefill := now }

/-- Modelled from the spec: step 2 of the admission algorithm of section 4.6 — if at least
one token is available, decrement by exactly 1 and admit, otherwise the caller must wait
(no state change here). -/
def tryTake (b : Bucket) : Option Bucket :=
  if 1 ≤ b.tokens then some { b with tokens := b.tokens - 1 } else none

/-- One observable bucket operation: a refill at a given absolute time, or an admission
attempt. -/
inductive BucketOp
  | refillAt (now : ℚ)
  | takeOne
deriving DecidableEq, Repr

/-- Applies one operation; a failed admission leaves the bucket unchanged. -/
def applyBucketOp (B r : ℚ) (b : Bucket) : BucketOp → Bucket
  | BucketOp.refillAt now => refillBucket B r now b
  | BucketOp.takeOne =>
    match tryTake b with
    | some b2 => b2
    | none => b

/-- Applies a sequence of operations in order. -/
def applyBucketOps (B r : ℚ) (b : Bucket) (ops : List BucketOp) : Bucket :=
  ops.foldl (applyBucketOp B r) b

/-- A sequence of operations is time-valid when every refill carries a timestamp no earlier
than the bucket clock at that point; admissions leave the clock unchanged. -/
def bucketOpsValid (t : ℚ) : List BucketOp → Prop
  | [] => True
  | BucketOp.refillAt now :: rest => t ≤ now ∧ bucketOpsValid now rest
  | BucketOp.takeOne :: rest => bucketOpsValid t rest

/-- A refill keeps the token count within the band when time moves forward. -/
theorem refillBucket_bounds (B r now : ℚ) (b : Bucket) (hB : 0 ≤ B) (hr : 0 ≤ r)
    (h0 : 0 ≤ b.tokens) (hnow : b.lastRefill ≤ now) :
    0 ≤ (refillBucket B r now b).tokens ∧ (refillBucket B r now b).tokens ≤ B := by
  constructor
  · exact le_min hB (add_nonneg h0 (mul_nonneg (sub_nonneg.mpr hnow) hr))
  · exact min_le_left _ _

/-- A refill never decreases the token count when time moves forward and the count is within
capacity. -/
theorem refillBucket_mono (B r now : ℚ) (b : Bucket) (hr : 0 ≤ r)
    (h1 : b.tokens ≤ B) (hnow : b.lastRefill ≤ now) :
    b.tokens ≤ (refillBucket B r now b).tokens :=
  le_min h1 (le_add_of_nonneg_right (mul_nonneg (sub_nonneg.mpr hnow) hr))

/-- An admission attempt keeps the token count within the band. -/
theorem applyTake_bounds (B : ℚ) (b : Bucket) (h0 : 0 ≤ b.tokens) (h1 : b.tokens ≤ B) :
    0 ≤ (applyBucketOp B 0 b BucketOp.takeOne).tokens ∧
      (applyBucketOp B 0 b BucketOp.takeOne).tokens ≤ B := by
  simp only [applyBucketOp, tryTake]
  by_cases h : 1 ≤ b.tokens
  · simp only [h, if_true]
    constructor
    · simpa using h
    · exact le_trans (by linarith) h1
  · simp only [h, if_false]
    exact ⟨h0, h1⟩

/-- Admission attempts do not move the bucket clock. -/
theorem applyTake_lastRefill (B r : ℚ) (b : Bucket) :
    (applyBucketOp B r b BucketOp.takeOne).lastRefill = b.lastRefill := by
  simp only [applyBucketOp, tryTake]
  by_cases h : 1 ≤ b.tokens
  · simp [h]
  · simp [h]

/-- The band 0 ≤ tokens ≤ B is preserved by every time-valid operation sequence. -/
theorem applyBucketOps_bounds (B r : ℚ) (hB : 0 ≤ B) (hr : 0 ≤ r) :
    ∀ (ops : List BucketOp) (b : Bucket), 0 ≤ b.tokens → b.tokens ≤ B →
      bucketOpsValid b.lastRefill ops →
      0 ≤ (applyBucketOps B r b ops).tokens ∧ (applyBucketOps B r b ops).tokens ≤ B := by
  intro ops
  induction ops with
  | nil =>
    intro b h0 h1 _
    exact ⟨h0, h1⟩
  | cons op rest ih =>
    intro b h0 h1 hv
    cases op with
    | refillAt now =>
      simp only [bucketOpsValid] at hv
      obtain ⟨hle, hv2⟩ := hv
      have hb := refillBucket_bounds B r now b hB hr h0 hle
      have hclock : (refillBucket B r now b).lastRefill = now := rfl
      exact ih (refillBucket B r now b) hb.1 hb.2 (by rw [hclock]; exact hv2)
    | takeOne =>
      simp only [bucketOpsValid] at hv
      have hb := applyTake_bounds B b h0 h1
      have hb2 : 0 ≤ (applyBucketOp B r b BucketOp.takeOne).tokens ∧
          (applyBucketOp B r b BucketOp.takeOne).tokens ≤ B := by
        simpa only [applyBucketOp] using hb
      exact ih (applyBucketOp B r b BucketOp.takeOne) hb2.1 hb2.2
        (by rw [applyTake_lastRefill]; exact hv)

/-- C7: for every bucket with capacity B ≥ 0 and rate r ≥ 0 whose token count starts within
the band, and every time-valid sequence of refills and admissions, the token count stays
within the closed band from 0 to B at every observable point (the final state of every
prefix, hence of the given sequence); a refill sets tokens to
min(B, tokens + (now − lastRefill) × r) and never decreases them when time moves forward,
and a successful admission decrements tokens by exactly 1. -/
theorem C7_token_bucket (B r : ℚ) (b : Bucket) (ops : List BucketOp) (now : ℚ)
    (c c2 : Bucket) (hB : 0 ≤ B) (hr : 0 ≤ r) (h0 : 0 ≤ b.tokens) (h1 : b.tokens ≤ B)
    (hv : bucketOpsValid b.lastRefill ops) (hnow : b.lastRefill ≤ now)
    (hc : tryTake c = some c2) :
    (0 ≤ (applyBucketOps B r b ops).tokens ∧ (applyBucketOps B r b ops).tokens ≤ B) ∧
    (refillBucket B r now b).tokens = min B (b.tokens + (now - b.lastRefill) * r) ∧
    b.tokens ≤ (refillBucket B r now b).tokens ∧
    c2.tokens = c.tokens - 1 := by
  refine ⟨applyBucketOps_bounds B r hB hr ops b h0 h1 hv, rfl,
    refillBucket_mono B r now b hr h1 hnow, ?_⟩
  rw [tryTake] at hc
  by_cases h : 1 ≤ c.tokens
  · rw [if_pos h] at hc
    cases hc
    rfl
  · rw [if_neg h] at hc
    cases hc

/-- Witness for C7 at the configuration of rateLimit.test.js "Burst capacity and token
refill validation": rps 2 and burst 3 give B = 3 and r = 2 tokens per second; a full
bucket admits a burst of 3, then a refill one second later adds 2 tokens; every state
stays within the band and the sampled admission decrements by exactly 1. -/
theorem C7_token_bucket_witness :
    bucketOpsValid (0 : ℚ)
      [BucketOp.takeOne, BucketOp.takeOne, BucketOp.takeOne,
       BucketOp.refillAt 1, BucketOp.takeOne] ∧
    tryTake { tokens := 2, lastRefill := 1 } = some { tokens := 1, lastRefill := 1 } ∧
    ((0 ≤ (applyBucketOps 3 2 { tokens := 3, lastRefill := 0 }
          [BucketOp.takeOne, BucketOp.takeOne, BucketOp.takeOne,
           BucketOp.refillAt 1, BucketOp.takeOne]).tokens ∧
      (applyBucketOps 3 2 { tokens := 3, lastRefill := 0 }
          [BucketOp.takeOne, BucketOp.takeOne, BucketOp.takeOne,
           BucketOp.refillAt 1, BucketOp.takeOne]).tokens ≤ 3) ∧
     (refillBucket 3 2 1 { tokens := 3, lastRefill := 0 }).tokens
        = min 3 ((3 : ℚ) + (1 - 0) * 2) ∧
     (3 : ℚ) ≤ (refillBucket 3 2 1 { tokens := 3, lastRefill := 0 }).tokens ∧
     (1 : ℚ) = 2 - 1) := by
  have hv : bucketOpsValid (0 : ℚ)
      [BucketOp.takeOne, BucketOp.takeOne, BucketOp.takeOne,
       BucketOp.refillAt 1, BucketOp.takeOne] := by
    simp only [bucketOpsValid]
    norm_num
  have hc : tryTake { tokens := 2, lastRefill := 1 }
      = some { tokens := 1, lastRefill := 1 } := by
    rw [tryTake]
    norm_num
  refine ⟨hv, hc, ?_⟩
  have := C7_token_bucket 3 2 { tokens := 3, lastRefill := 0 }
    [BucketOp.takeOne, BucketOp.takeOne, BucketOp.takeOne,
     BucketOp.refillAt 1, BucketOp.takeOne] 1
    { tokens := 2, lastRefill := 1 } { tokens := 1, lastRefill := 1 }
    (by norm_num) (by norm_num) (by norm_num) (by norm_num) hv (by norm_num) hc
  exact this

/-- Hedging policy of section 4.5 of the spec: the fields relevant to method gating and the
transport-call count; policy and servers are orthogonal to the gating claim. -/
structure HedgingPolicy where
  includeMethods : List Method
  hedgeDelay : Nat
  maxHedges : Nat
deriving DecidableEq, Repr

/-- Modelled from the spec: the default hedging method whitelist of section 4.5 — GET, HEAD,
OPTIONS; the hedging executor under src/drivers/native/features/hedging/ is exported by
src/src/index.js but absent from the tree. The tests call this option includeHttpMethods
(hedging.test.js "Custom includeHttpMethods configuration"). -/
def defaultIncludeMethods : List Method := [Method.GET, Method.HEAD, Method.OPTIONS]

/-- Modelled from the spec: transport calls one attempt issues under the hedging executor of
section 4.5 — if the method is not in the whitelist, hedging is bypassed entirely and the
attempt issues exactly one transport call; otherwise the primary plus however many hedges
were launched before the race settled, capped by maxHedges. -/
def hedgeTransportCalls (pol : HedgingPolicy) (m : Method) (hedgesLaunched : Nat) : Nat :=
  if pol.includeMethods.contains m then 1 + min hedgesLaunched pol.maxHedges else 1

/-- C8: for every request whose method is not in the includeMethods whitelist, the hedging
executor is bypassed and the attempt issues exactly one transport call, whatever the
hedge delay, the maximum hedge count and the number of hedges the schedule would have
launched; the default whitelist is GET, HEAD, OPTIONS. -/
theorem C8_method_gating (pol : HedgingPolicy) (m : Method) (hedgesLaunched : Nat)
    (h : pol.includeMethods.contains m = false) :
    hedgeTransportCalls pol m hedgesLaunched = 1 ∧
    defaultIncludeMethods = [Method.GET, Method.HEAD, Method.OPTIONS] := by
  constructor
  · rw [hedgeTransportCalls, h]
    rfl
  · rfl

/-- Witness for C8 at the configuration of hedging.test.js "POST requests are not hedged by
default": race policy with hedgeDelay 200 and maxHedges 2, a POST, and a schedule that
would have launched both hedges; exactly one transport call is made. -/
theorem C8_method_gating_witness :
    ({ includeMethods := defaultIncludeMethods, hedgeDelay := 200, maxHedges := 2 }
        : HedgingPolicy).includeMethods.contains Method.POST = false ∧
    (hedgeTransportCalls
        { includeMethods := defaultIncludeMethods, hedgeDelay := 200, maxHedges := 2 }
        Method.POST 2 = 1 ∧
      defaultIncludeMethods = [Method.GET, Method.HEAD, Method.OPTIONS]) :=
  ⟨by decide,
   C8_method_gating
     { includeMethods := defaultIncludeMethods, hedgeDelay := 200, maxHedges := 2 }
     Method.POST 2 (by decide)⟩

/-- Result of one transport attempt: a response with its status, or a raw failure. -/
inductive TransportResult
  | ok (status : Nat)
  | fail (raw : RawFailure)
deriving DecidableEq, Repr

/-- The normalized error kind of an attempt result, if it is a failure. -/
def resultErrorKind : TransportResult → Option ErrorKind
  | TransportResult.ok _ => none
  | TransportResult.fail raw => some (normalizeFailure raw)

/-- Modelled from the spec: the timeout feature (sections 4.2, 6 and 8) — a per-attempt
timeout of timeoutMs fires when the elapsed time reaches it, and timeout = 0 means the
timeout is disabled (the config resolver records no-timeout distinctly from default);
the timeout implementation inside the absent native driver is observed by
timeout.test.js "Zero timeout disables timeout". -/
def timeoutFires (timeoutMs elapsed : Nat) : Bool :=
  if timeoutMs = 0 then false else decide (timeoutMs ≤ elapsed)

/-- One attempt raced against its timeout: the timeout firing replaces the transport outcome
by the raw timeout failure, which normalizes to a TIMEOUT error. -/
def runWithTimeout (timeoutMs elapsed : Nat) (r : TransportResult) : TransportResult :=
  if timeoutFires timeoutMs elapsed then TransportResult.fail RawFailure.nativeTimeout else r

/-- C9: with timeout = 0 the timeout never fires, for every elapsed transport duration: the
attempt completes with the transport's own outcome, and in particular the surfaced error
kind is exactly the one of that outcome, never a TIMEOUT injected by the timeout race. -/
theorem C9_zero_timeout_never_fires (elapsed : Nat) (r : TransportResult) :
    timeoutFires 0 elapsed = false ∧
    runWithTimeout 0 elapsed r = r ∧
    resultErrorKind (runWithTimeout 0 elapsed r) = resultErrorKind r := by
  refine ⟨rfl, ?_, ?_⟩
  · rw [runWithTimeout]
    rfl
  · rw [runWithTimeout]
    rfl

/-- Completion of one user-visible call, as counted by the stats subsystem. -/
inductive CallOutcome
  | success
  | failure
deriving DecidableEq, Repr

/-- Stats events relevant to the counters: request:start at call start, and exactly one of
request:success or request:fail at completion. -/
inductive StatsEvent
  | start
  | succeeded
  | failed
deriving DecidableEq, Repr

/-- Modelled from the spec: the stats event contract of section 6 — each completed call
emits request:start once and then exactly one of request:success and request:fail; the
StatsHub aggregation code under src/src/core/stats/ is absent from the tree. -/
def eventsOfCall : CallOutcome → List StatsEvent
  | CallOutcome.success => [StatsEvent.start, StatsEvent.succeeded]
  | CallOutcome.failure => [StatsEvent.start, StatsEvent.failed]

/-- The total, success and fail counters kept by the stats hub. -/
structure Counters where
  total : Nat
  success : Nat
  fail : Nat
deriving DecidableEq, Repr

/-- One event increments exactly one counter. -/
def applyStatsEvent (c : Counters) : StatsEvent → Counters
  | StatsEvent.start => { c with total := c.total + 1 }
  | StatsEvent.succeeded => { c with success := c.success + 1 }
  | StatsEvent.failed => { c with fail := c.fail + 1 }

/-- Counters after consuming a stream of events, starting from zero. -/
def tallyEvents (evs : List StatsEvent) : Counters :=
  evs.foldl applyStatsEvent { total := 0, success := 0, fail := 0 }

/-- The event stream of a batch of completed calls, one per call, in completion order. -/
def statsEventsOf (calls : List CallOutcome) : List StatsEvent :=
  (calls.map eventsOfCall).flatten

/-- Counter folding only counts event occurrences. -/
theorem tallyEvents_counts (evs : List StatsEvent) :
    tallyEvents evs
      = { total := evs.count StatsEvent.start,
          success := evs.count StatsEvent.succeeded,
          fail := evs.count StatsEvent.failed } := by
  have haux : ∀ (l : List StatsEvent) (c : Counters),
      l.foldl applyStatsEvent c
        = { total := c.total + l.count StatsEvent.start,
            success := c.success + l.count StatsEvent.succeeded,
            fail := c.fail + l.count StatsEvent.failed } := by
    intro l
    induction l with
    | nil =>
      intro c
      simp
    | cons e rest ih =>
      intro c
      cases e <;>
        simp [List.foldl_cons, applyStatsEvent, ih, List.count_cons] <;>
        omega
  rw [tallyEvents, haux]
  simp

/-- Each completed call contributes exactly one start event and exactly one completion
event. -/
theorem eventsOfCall_counts (o : CallOutcome) :
    (eventsOfCall o).count StatsEvent.start = 1 ∧
    (eventsOfCall o).count StatsEvent.succeeded
        + (eventsOfCall o).count StatsEvent.failed = 1 := by
  cases o <;> exact ⟨by decide, by decide⟩

/-- In the event stream of a batch of completed calls, the starts count the calls, and the
completions partition them. -/
theorem statsEventsOf_counts (calls : List CallOutcome) :
    (statsEventsOf calls).count StatsEvent.start = calls.length ∧
    (statsEventsOf calls).count StatsEvent.succeeded
        + (statsEventsOf calls).count StatsEvent.failed = calls.length := by
  induction calls with
  | nil => exact ⟨rfl, rfl⟩
  | cons o rest ih =>
    obtain ⟨ih1, ih2⟩ := ih
    obtain ⟨e1, e2⟩ := eventsOfCall_counts o
    have hsplit : statsEventsOf (o :: rest) = eventsOfCall o ++ statsEventsOf rest := by
      simp [statsEventsOf]
    rw [hsplit]
    constructor
    · rw [List.count_append, e1, ih1, List.length_cons]
      omega
    · rw [List.count_append, List.count_append, List.length_cons]
      omega

/-- C10: for every finite batch of completed calls and every interleaving of their stats
events (any permutation of the per-call streams, covering concurrent completion orders),
the resulting counters satisfy success + fail = total: each completion is counted exactly
once, as a success or as a failure. -/
theorem C10_stats_conservation (calls : List CallOutcome) (evs : List StatsEvent)
    (h : evs.Perm (statsEventsOf calls)) :
    (tallyEvents evs).success + (tallyEvents evs).fail = (tallyEvents evs).total := by
  obtain ⟨h1, h2⟩ := statsEventsOf_counts calls
  rw [tallyEvents_counts]
  simp only
  rw [h.count_eq, h.count_eq, h.count_eq, h1, h2]

/-- Witness for C10 on a concurrent burst in the shape of edgeCases.test.js
"Stats handle rapid request bursts": three calls, two successes and one failure, with the
events interleaved across calls; the counters conserve success + fail = total. -/
theorem C10_stats_conservation_witness :
    [StatsEvent.start, StatsEvent.start, StatsEvent.failed, StatsEvent.start,
       StatsEvent.succeeded, StatsEvent.succeeded].Perm
      (statsEventsOf [CallOutcome.success, CallOutcome.failure, CallOutcome.success]) ∧
    (tallyEvents
        [StatsEvent.start, StatsEvent.start, StatsEvent.failed, StatsEvent.start,
         StatsEvent.succeeded, StatsEvent.succeeded]).success
      + (tallyEvents
          [StatsEvent.start, StatsEvent.start, StatsEvent.failed, StatsEvent.start,
           StatsEvent.succeeded, StatsEvent.succeeded]).fail
      = (tallyEvents
          [StatsEvent.start, StatsEvent.start, StatsEvent.failed, StatsEvent.start,
           StatsEvent.succeeded, StatsEvent.succeeded]).total :=
  ⟨by decide,
   C10_stats_conservation [CallOutcome.success, CallOutcome.failure, CallOutcome.success]
     [StatsEvent.start, StatsEvent.start, StatsEvent.failed, StatsEvent.start,
      StatsEvent.succeeded, StatsEvent.succeeded] (by decide)⟩

end Luminara
